import Mathlib

/-!
Shallow embedding of xapian-bridge (`src/xapianBridge.js`): a small HTTP
control plane over a set of named xapian search indices.  The four HTTP
handlers and the startup replay loop of `xapianBridge.js` are translated
directly from the source.  The collaborating modules `databaseManager.js`
and `databaseCache.js` are imported by the source but are not part of this
repository, so the Index Registry and the Location Cache are modelled from
the specification; the possibility of a cache storage failure is passed to
each handler as an explicit boolean.
-/

/-- A scored document as returned by the search engine. -/
structure ScoredDoc where
  docId : Nat
  score : Int
deriving DecidableEq, Repr

/-- Error values: the sentinels `DatabaseManager.ERR_INVALID_PATH` and
`DatabaseManager.ERR_DATABASE_NOT_FOUND`, the opaque engine failure raised
during a query, and a cache storage failure. -/
inductive BridgeError
  | invalidPath
  | databaseNotFound
  | engineFailure
  | cacheStorageFailure
deriving DecidableEq, Repr

/-- Modelled from the spec: the opaque search-engine collaborator standing
behind the missing `databaseManager.js`.  An index is openable exactly at the
locations in `validLocations`; querying an open index at location `loc` with
`(q, collapse, limit)` returns the ordered list `queryResult loc q collapse
limit` of scored documents, or fails opaquely when `queryFails loc` holds. -/
structure Engine where
  validLocations : List String
  queryResult : String → Option String → Option String → Nat → List ScoredDoc
  queryFails : String → Bool

/-- Association-list lookup of the location registered for a name. -/
def findLoc : List (String × String) → String → Option String
  | [], _ => none
  | (n, l) :: rest, name => if n = name then some l else findLoc rest name

/-- Modelled from the spec: the Index Registry state (missing
`databaseManager.js`); it owns the mapping from index name to open handle,
a handle being recorded by the location it was opened at. -/
structure DatabaseManager where
  dbs : List (String × String)
deriving DecidableEq, Repr

/-- `manager.has_db(name)`: pure lookup, true iff `name` has an open handle. -/
def DatabaseManager.has_db (m : DatabaseManager) (name : String) : Bool :=
  (findLoc m.dbs name).isSome

/-- Modelled from the spec: `manager.create_db(name, path)`.  Idempotent on an
already-open name (the existing handle is authoritative and `path` is not
re-validated); otherwise fails with `ERR_INVALID_PATH` when no openable index
exists at `path`, leaving the state unchanged, and on success opens the
handle. -/
def create_db (eng : Engine) (m : DatabaseManager) (name path : String) :
    Except BridgeError DatabaseManager :=
  if m.has_db name then .ok m
  else if path ∈ eng.validLocations then .ok ⟨(name, path) :: m.dbs⟩
  else .error .invalidPath

/-- Modelled from the spec: `manager.remove_db(name)`; fails with
`ERR_DATABASE_NOT_FOUND` when `name` has no open handle. -/
def remove_db (m : DatabaseManager) (name : String) :
    Except BridgeError DatabaseManager :=
  if m.has_db name then .ok ⟨m.dbs.filter (fun e => decide (e.1 ≠ name))⟩
  else .error .databaseNotFound

/-- Modelled from the spec: `manager.query_db(name, q, collapse, limit)`;
fails with `ERR_DATABASE_NOT_FOUND` when `name` has no open handle, otherwise
delegates to the engine handle and returns its result sequence unmodified. -/
def query_db (eng : Engine) (m : DatabaseManager) (name : String)
    (q collapse : Option String) (limit : Nat) :
    Except BridgeError (List ScoredDoc) :=
  match findLoc m.dbs name with
  | none => .error .databaseNotFound
  | some loc =>
    if eng.queryFails loc then .error .engineFailure
    else .ok (eng.queryResult loc q collapse limit)

/-- Insert a document into a list kept in descending score order, after the
existing documents of equal or larger score (stable). -/
def insertDesc (d : ScoredDoc) : List ScoredDoc → List ScoredDoc
  | [] => [d]
  | e :: rest => if e.score < d.score then d :: e :: rest else e :: insertDesc d rest

/-- Stable insertion sort by descending engine-reported score. -/
def sortDesc : List ScoredDoc → List ScoredDoc
  | [] => []
  | d :: rest => insertDesc d (sortDesc rest)

/-- Modelled from the spec: `manager.query_all(q, collapse, limit)`.  Executes
the query against every currently open handle; a failure of any one handle
aborts the whole call with an engine failure; otherwise the per-index result
sequences are merged into one sequence ordered by descending score (ties kept
in index iteration order) and the overall limit is applied after merging. -/
def query_all (eng : Engine) (m : DatabaseManager)
    (q collapse : Option String) (limit : Nat) :
    Except BridgeError (List ScoredDoc) :=
  if m.dbs.any (fun db => eng.queryFails db.2) then .error .engineFailure
  else .ok ((sortDesc (m.dbs.map (fun db => eng.queryResult db.2 q collapse limit)).flatten).take limit)

/-- Modelled from the spec: the Location Cache state (missing
`databaseCache.js`); a durable mapping from index name to location. -/
structure DatabaseCache where
  entries : List (String × String)
deriving DecidableEq, Repr

/-- `cache.get_entries()`: a snapshot of the stored (name, location) pairs. -/
def DatabaseCache.get_entries (c : DatabaseCache) : List (String × String) :=
  c.entries

/-- `cache.remove_entry(name)`: removes the binding for `name`, a no-op if
absent. -/
def DatabaseCache.remove_entry (c : DatabaseCache) (name : String) : DatabaseCache :=
  ⟨c.entries.filter (fun e => decide (e.1 ≠ name))⟩

/-- `cache.set_entry(name, location)`: upserts the binding for `name`. -/
def DatabaseCache.set_entry (c : DatabaseCache) (name loc : String) : DatabaseCache :=
  ⟨(name, loc) :: c.entries.filter (fun e => decide (e.1 ≠ name))⟩

/-- Name of the pseudo index which triggers a query across all databases
(`META_DATABASE_NAME` in the source). -/
def META_DATABASE_NAME : String := "_all"

/-- Methods available to meta database resources, used in Allow headers
(`META_DATABASE_METHODS` in the source). -/
def META_DATABASE_METHODS : String := "GET"

/-- The mutable state shared by the handlers in `main`: the cache and the
manager. -/
structure ServerState where
  cache : DatabaseCache
  manager : DatabaseManager
deriving DecidableEq, Repr

/-- An HTTP response without a body: a status code and an optional Allow
header. -/
structure HttpResponse where
  status : Nat
  allow : Option String
deriving DecidableEq, Repr

/-- An HTTP response to a query: a status code and, on success, a JSON array
body of scored documents. -/
structure QueryResponse where
  status : Nat
  body : Option (List ScoredDoc)
deriving DecidableEq, Repr

/-- The `GET /:index_name` handler: 200 if the database exists or the name is
the meta name, 404 otherwise. -/
def getHandler (st : ServerState) (index_name : String) : HttpResponse :=
  if st.manager.has_db index_name = true ∨ index_name = META_DATABASE_NAME then
    ⟨200, none⟩
  else ⟨404, none⟩

/-- The `PUT /:index_name` handler, translated from `xapianBridge.js`:
400 when the `path` query parameter is missing; 405 with `Allow: GET` on the
meta name; otherwise, when the name has no open handle, `create_db` then
`cache.set_entry` are attempted, an invalid path giving 403 and any other
exception (here: a cache storage failure, flagged by `cacheSetFails`) giving
500; in every remaining case 200. -/
def putHandler (eng : Engine) (cacheSetFails : Bool) (st : ServerState)
    (index_name : String) (path : Option String) : HttpResponse × ServerState :=
  match path with
  | none => (⟨400, none⟩, st)
  | some p =>
    if index_name = META_DATABASE_NAME then
      (⟨405, some META_DATABASE_METHODS⟩, st)
    else if st.manager.has_db index_name then
      (⟨200, none⟩, st)
    else
      match create_db eng st.manager index_name p with
      | .error .invalidPath => (⟨403, none⟩, st)
      | .error _ => (⟨500, none⟩, st)
      | .ok m2 =>
        if cacheSetFails then (⟨500, none⟩, ⟨st.cache, m2⟩)
        else (⟨200, none⟩, ⟨st.cache.set_entry index_name p, m2⟩)

/-- The `DELETE /:index_name` handler, translated from `xapianBridge.js`:
405 with `Allow: GET` on the meta name; otherwise `remove_db` then
`cache.remove_entry` run in one try block whose catch returns 404, so both a
missing database and a cache storage failure (flagged by `cacheRemoveFails`)
give 404; 200 on full success. -/
def deleteHandler (cacheRemoveFails : Bool) (st : ServerState)
    (index_name : String) : HttpResponse × ServerState :=
  if index_name = META_DATABASE_NAME then
    (⟨405, some META_DATABASE_METHODS⟩, st)
  else
    match remove_db st.manager index_name with
    | .error _ => (⟨404, none⟩, st)
    | .ok m2 =>
      if cacheRemoveFails then (⟨404, none⟩, ⟨st.cache, m2⟩)
      else (⟨200, none⟩, ⟨st.cache.remove_entry index_name, m2⟩)

/-- The `GET /:index_name/query` handler, translated from `xapianBridge.js`:
400 when `limit` is missing; otherwise `query_all` on the meta name and
`query_db` on any other name, with `ERR_DATABASE_NOT_FOUND` mapped to 404 and
any other exception to 500; 200 with the results as body on success. -/
def queryHandler (eng : Engine) (st : ServerState) (index_name : String)
    (q collapse : Option String) (limit : Option Nat) : QueryResponse :=
  match limit with
  | none => ⟨400, none⟩
  | some n =>
    match (if index_name = META_DATABASE_NAME then
             query_all eng st.manager q collapse n
           else
             query_db eng st.manager index_name q collapse n) with
    | .ok results => ⟨200, some results⟩
    | .error e => if e = .databaseNotFound then ⟨404, none⟩ else ⟨500, none⟩

/-- The startup replay loop of `main`, translated from `xapianBridge.js`
lines 38-50: for each cached (name, path) pair attempt `create_db`, and when
it fails with `ERR_INVALID_PATH` remove that entry from the cache. -/
def replayEntries (eng : Engine) :
    List (String × String) → DatabaseManager → DatabaseCache →
    DatabaseManager × DatabaseCache
  | [], m, c => (m, c)
  | (n, l) :: rest, m, c =>
    match create_db eng m n l with
    | .ok m2 => replayEntries eng rest m2 c
    | .error .invalidPath => replayEntries eng rest m (c.remove_entry n)
    | .error _ => replayEntries eng rest m c

/-- Startup replay as run once by `main` before serving any request: a fresh
manager is populated from the cache snapshot. -/
def startupReplay (eng : Engine) (cache : DatabaseCache) :
    DatabaseManager × DatabaseCache :=
  replayEntries eng cache.get_entries ⟨[]⟩ cache

/-- A concrete engine for witnesses: one valid location, queries never fail
and return no documents. -/
def engEx : Engine :=
  ⟨["/valid/path"], fun _ _ _ _ => [], fun _ => false⟩

/-- A concrete engine whose every query fails. -/
def engFailEx : Engine :=
  ⟨["/valid/path"], fun _ _ _ _ => [], fun _ => true⟩

/-- A concrete empty server state. -/
def stEx : ServerState := ⟨⟨[]⟩, ⟨[]⟩⟩

/-- A concrete server state with one open index `idx1` at location `/v`. -/
def stOpen : ServerState := ⟨⟨[("idx1", "/v")]⟩, ⟨[("idx1", "/v")]⟩⟩

/-- A concrete cache snapshot with one valid and one stale entry. -/
def cacheEx : DatabaseCache :=
  ⟨[("idx1", "/valid/path"), ("idx2", "/missing/path")]⟩

/-- A concrete engine returning two documents on every query. -/
def engDocs : Engine :=
  ⟨["/valid/path"], fun _ _ _ _ => [⟨1, 5⟩, ⟨2, 9⟩], fun _ => false⟩

theorem findLoc_filter_self (l : List (String × String)) (name : String) :
    findLoc (l.filter (fun e => !decide (e.1 = name))) name = none := by
  induction l with
  | nil => rfl
  | cons e rest ih =>
    rw [List.filter_cons]
    by_cases h : e.1 = name
    · simp [h, ih]
    · simp [h, findLoc, ih]

/-- C9: a cache write failure after a successful index creation never rolls
the creation back: the PUT reports 500, yet the index is open in the
registry afterwards and remains queryable. -/
theorem put_cache_write_failure_no_rollback (eng : Engine) (st : ServerState)
    (name loc : String)
    (hmeta : name ≠ META_DATABASE_NAME)
    (habs : st.manager.has_db name = false)
    (hval : loc ∈ eng.validLocations) :
    (putHandler eng true st name (some loc)).1 = ⟨500, none⟩ ∧
    (putHandler eng true st name (some loc)).2.manager.has_db name = true ∧
    (∀ q collapse n, eng.queryFails loc = false →
      query_db eng (putHandler eng true st name (some loc)).2.manager
        name q collapse n = .ok (eng.queryResult loc q collapse n)) := by
  have habs' : ¬ st.manager.has_db name = true := by simp [habs]
  have hcreate : create_db eng st.manager name loc
      = .ok ⟨(name, loc) :: st.manager.dbs⟩ := by
    simp [create_db, habs, hval]
  have hput : putHandler eng true st name (some loc)
      = (⟨500, none⟩, ⟨st.cache, ⟨(name, loc) :: st.manager.dbs⟩⟩) := by
    simp [putHandler, hmeta, habs', hcreate]
  refine ⟨by rw [hput], by rw [hput]; simp [DatabaseManager.has_db, findLoc], ?_⟩
  intro q collapse n hqf
  rw [hput]
  simp [query_db, findLoc, hqf]

/-- Witness for C9 at a concrete input: creating `idx1` at the valid location
while the cache write fails gives 500, yet `idx1` is open and queryable. -/
theorem put_cache_write_failure_no_rollback_witness :
    (putHandler engEx true stEx "idx1" (some "/valid/path")).1 = ⟨500, none⟩ ∧
    (putHandler engEx true stEx "idx1" (some "/valid/path")).2.manager.has_db
      "idx1" = true ∧
    query_db engEx
      (putHandler engEx true stEx "idx1" (some "/valid/path")).2.manager
      "idx1" none none 5 = .ok [] := by
  have h := put_cache_write_failure_no_rollback engEx stEx "idx1" "/valid/path"
    (by decide) (by decide) (by decide)
  exact ⟨h.1, h.2.1, h.2.2 none none 5 (by decide)⟩

/-- C10: the DELETE handler maps every exception in its try block to 404:
removing an absent name gives 404 with nothing changed, and a cache storage
failure occurring after the database was already removed from the registry
also gives 404 — never a distinct storage-error status — with the database
indeed removed. -/
theorem delete_all_failures_map_to_404 (crf : Bool) (st : ServerState)
    (name : String) (hmeta : name ≠ META_DATABASE_NAME) :
    (st.manager.has_db name = false →
      deleteHandler crf st name = (⟨404, none⟩, st)) ∧
    (st.manager.has_db name = true →
      (deleteHandler true st name).1 = ⟨404, none⟩ ∧
      (deleteHandler true st name).2.manager.has_db name = false) := by
  constructor
  · intro habs
    simp [deleteHandler, hmeta, remove_db, habs]
  · intro hopen
    have hrem : remove_db st.manager name
        = .ok ⟨st.manager.dbs.filter (fun e => decide (e.1 ≠ name))⟩ := by
      simp [remove_db, hopen]
    have hdel : deleteHandler true st name
        = (⟨404, none⟩,
           ⟨st.cache, ⟨st.manager.dbs.filter (fun e => decide (e.1 ≠ name))⟩⟩) := by
      simp [deleteHandler, hmeta, hrem]
    refine ⟨by rw [hdel], ?_⟩
    rw [hdel]
    simp [DatabaseManager.has_db, findLoc_filter_self]

/-- Witness for C10 at concrete inputs: deleting the absent `idx1` on the
empty state gives 404 and no change; deleting the open `idx1` with a failing
cache removal gives 404 with the database removed. -/
theorem delete_all_failures_map_to_404_witness :
    deleteHandler false stEx "idx1" = (⟨404, none⟩, stEx) ∧
    (deleteHandler true stOpen "idx1").1 = ⟨404, none⟩ ∧
    (deleteHandler true stOpen "idx1").2.manager.has_db "idx1" = false := by
  have h1 := delete_all_failures_map_to_404 false stEx "idx1" (by decide)
  have h2 := delete_all_failures_map_to_404 true stOpen "idx1" (by decide)
  exact ⟨h1.1 (by decide), (h2.2 (by decide)).1, (h2.2 (by decide)).2⟩

/-- C6: a failure of any one engine handle makes `query_all` abort with the
engine failure — no partial results — and the HTTP layer maps it to 500. -/
theorem query_all_one_failure_aborts (eng : Engine) (st : ServerState)
    (q collapse : Option String) (n : Nat) (db : String × String)
    (hmem : db ∈ st.manager.dbs) (hfail : eng.queryFails db.2 = true) :
    query_all eng st.manager q collapse n = .error .engineFailure ∧
    queryHandler eng st "_all" q collapse (some n) = ⟨500, none⟩ := by
  have hany : st.manager.dbs.any (fun d => eng.queryFails d.2) = true :=
    List.any_eq_true.mpr ⟨db, hmem, hfail⟩
  have hq : query_all eng st.manager q collapse n = .error .engineFailure := by
    simp [query_all, hany]
  refine ⟨hq, ?_⟩
  simp [queryHandler, META_DATABASE_NAME, hq]

/-- Witness for C6 at a concrete input: with `idx1` open and an engine whose
queries fail, the aggregate query fails and the response is 500. -/
theorem query_all_one_failure_aborts_witness :
    query_all engFailEx stOpen.manager none none 5 = .error .engineFailure ∧
    queryHandler engFailEx stOpen "_all" none none (some 5) = ⟨500, none⟩ :=
  query_all_one_failure_aborts engFailEx stOpen none none 5 ("idx1", "/v")
    (by decide) (by decide)

theorem has_db_cons (dbs : List (String × String)) (n1 l1 n : String) :
    (DatabaseManager.mk ((n1, l1) :: dbs)).has_db n =
      (if n1 = n then true else (DatabaseManager.mk dbs).has_db n) := by
  by_cases h : n1 = n
  · simp [DatabaseManager.has_db, findLoc, h]
  · simp [DatabaseManager.has_db, findLoc, h]

theorem replayEntries_cons (eng : Engine) (n1 l1 : String)
    (rest : List (String × String)) (m : DatabaseManager) (c : DatabaseCache) :
    replayEntries eng ((n1, l1) :: rest) m c =
      if m.has_db n1 then replayEntries eng rest m c
      else if l1 ∈ eng.validLocations then
        replayEntries eng rest ⟨(n1, l1) :: m.dbs⟩ c
      else replayEntries eng rest m (c.remove_entry n1) := by
  by_cases hh : m.has_db n1
  · simp [replayEntries, create_db, hh]
  · by_cases hv : l1 ∈ eng.validLocations
    · simp [replayEntries, create_db, hh, hv]
    · simp [replayEntries, create_db, hh, hv]

theorem mem_names_remove_entry (c : DatabaseCache) (x y : String)
    (h : x ∈ (c.remove_entry y).entries.map Prod.fst) :
    x ∈ c.entries.map Prod.fst := by
  obtain ⟨e, he, rfl⟩ := List.mem_map.mp h
  exact List.mem_map.mpr ⟨e, (List.mem_filter.mp he).1, rfl⟩

theorem not_mem_names_remove_entry_self (c : DatabaseCache) (n : String) :
    n ∉ (c.remove_entry n).entries.map Prod.fst := by
  intro h
  obtain ⟨e, he, rfl⟩ := List.mem_map.mp h
  have h2 := (List.mem_filter.mp he).2
  simp at h2

theorem replay_has_mono (eng : Engine) :
    ∀ (es : List (String × String)) (m : DatabaseManager) (c : DatabaseCache)
      (n : String), m.has_db n = true →
      (replayEntries eng es m c).1.has_db n = true := by
  intro es
  induction es with
  | nil =>
    intro m c n h
    exact h
  | cons e rest ih =>
    intro m c n h
    obtain ⟨n1, l1⟩ := e
    rw [replayEntries_cons]
    by_cases hh : m.has_db n1 = true
    · rw [if_pos hh]
      exact ih m c n h
    · rw [if_neg hh]
      by_cases hv : l1 ∈ eng.validLocations
      · rw [if_pos hv]
        apply ih
        rw [has_db_cons]
        by_cases hn : n1 = n
        · rw [if_pos hn]
        · rw [if_neg hn]
          exact h
      · rw [if_neg hv]
        exact ih _ _ _ h

theorem replay_has_of_valid (eng : Engine) :
    ∀ (es : List (String × String)) (m : DatabaseManager) (c : DatabaseCache)
      (n l : String), (n, l) ∈ es → l ∈ eng.validLocations →
      (replayEntries eng es m c).1.has_db n = true := by
  intro es
  induction es with
  | nil =>
    intro m c n l hmem _
    exact absurd hmem (List.not_mem_nil _)
  | cons e rest ih =>
    intro m c n l hmem hval
    obtain ⟨n1, l1⟩ := e
    rw [replayEntries_cons]
    rcases List.mem_cons.mp hmem with heq | hmem2
    · injection heq with h1 h2
      subst h1
      subst h2
      by_cases hh : m.has_db n = true
      · rw [if_pos hh]
        exact replay_has_mono eng rest m c n hh
      · rw [if_neg hh, if_pos hval]
        apply replay_has_mono
        rw [has_db_cons, if_pos rfl]
    · by_cases hh : m.has_db n1 = true
      · rw [if_pos hh]
        exact ih m c n l hmem2 hval
      · rw [if_neg hh]
        by_cases hv : l1 ∈ eng.validLocations
        · rw [if_pos hv]
          exact ih _ c n l hmem2 hval
        · rw [if_neg hv]
          exact ih _ _ n l hmem2 hval

theorem replay_untouched (eng : Engine) :
    ∀ (es : List (String × String)) (m : DatabaseManager) (c : DatabaseCache)
      (n : String), (∀ l, (n, l) ∉ es) → m.has_db n = false →
      (replayEntries eng es m c).1.has_db n = false ∧
      (n ∉ c.entries.map Prod.fst →
        n ∉ (replayEntries eng es m c).2.entries.map Prod.fst) := by
  intro es
  induction es with
  | nil =>
    intro m c n _ h
    exact ⟨h, fun hc => hc⟩
  | cons e rest ih =>
    intro m c n hnot hfalse
    obtain ⟨n1, l1⟩ := e
    have hne : n1 ≠ n := by
      intro hcontra
      subst hcontra
      exact hnot l1 (List.mem_cons_self _ _)
    have hnotrest : ∀ l, (n, l) ∉ rest :=
      fun l hl => hnot l (List.mem_cons_of_mem _ hl)
    rw [replayEntries_cons]
    by_cases hh : m.has_db n1 = true
    · rw [if_pos hh]
      exact ih m c n hnotrest hfalse
    · rw [if_neg hh]
      by_cases hv : l1 ∈ eng.validLocations
      · rw [if_pos hv]
        apply ih _ _ n hnotrest
        rw [has_db_cons, if_neg hne]
        exact hfalse
      · rw [if_neg hv]
        have h3 := ih m (c.remove_entry n1) n hnotrest hfalse
        refine ⟨h3.1, fun hc => h3.2 ?_⟩
        intro hmem
        exact hc (mem_names_remove_entry c n n1 hmem)

theorem replay_invalid (eng : Engine) :
    ∀ (es : List (String × String)) (m : DatabaseManager) (c : DatabaseCache)
      (n l : String), (es.map Prod.fst).Nodup → (n, l) ∈ es →
      l ∉ eng.validLocations → m.has_db n = false →
      (replayEntries eng es m c).1.has_db n = false ∧
      n ∉ (replayEntries eng es m c).2.entries.map Prod.fst := by
  intro es
  induction es with
  | nil =>
    intro m c n l _ hmem
    exact absurd hmem (List.not_mem_nil _)
  | cons e rest ih =>
    intro m c n l hnodup hmem hinv hfalse
    obtain ⟨n1, l1⟩ := e
    rw [List.map_cons] at hnodup
    have hhead : n1 ∉ rest.map Prod.fst := (List.nodup_cons.mp hnodup).1
    have hnodup2 : (rest.map Prod.fst).Nodup := (List.nodup_cons.mp hnodup).2
    rcases List.mem_cons.mp hmem with heq | hmem2
    · injection heq with h1 h2
      subst h1
      subst h2
      have hnotrest : ∀ l2, (n, l2) ∉ rest := by
        intro l2 hl2
        exact hhead (List.mem_map.mpr ⟨(n, l2), hl2, rfl⟩)
      rw [replayEntries_cons, if_neg (by simp [hfalse]), if_neg hinv]
      have h3 := replay_untouched eng rest m (c.remove_entry n) n hnotrest hfalse
      exact ⟨h3.1, h3.2 (not_mem_names_remove_entry_self c n)⟩
    · have hne : n1 ≠ n := by
        intro hcontra
        rw [hcontra] at hhead
        exact hhead (List.mem_map.mpr ⟨(n, l), hmem2, rfl⟩)
      rw [replayEntries_cons]
      by_cases hh : m.has_db n1 = true
      · rw [if_pos hh]
        exact ih m c n l hnodup2 hmem2 hinv hfalse
      · rw [if_neg hh]
        by_cases hv : l1 ∈ eng.validLocations
        · rw [if_pos hv]
          apply ih _ c n l hnodup2 hmem2 hinv
          rw [has_db_cons, if_neg hne]
          exact hfalse
        · rw [if_neg hv]
          exact ih m (c.remove_entry n1) n l hnodup2 hmem2 hinv hfalse

/-- C1: startup replay attempts `create_db` for every cached (name, location)
pair, removing from the cache those that fail with an invalid path;
afterwards every cached name with a valid location is open and every cached
name with an invalid location is neither open nor present in the cache
entries. -/
theorem startup_replay_correct (eng : Engine) (cache : DatabaseCache)
    (hnodup : (cache.get_entries.map Prod.fst).Nodup)
    (n l : String) (hmem : (n, l) ∈ cache.get_entries) :
    (l ∈ eng.validLocations → (startupReplay eng cache).1.has_db n = true) ∧
    (l ∉ eng.validLocations →
      (startupReplay eng cache).1.has_db n = false ∧
      n ∉ (startupReplay eng cache).2.get_entries.map Prod.fst) := by
  constructor
  · intro hval
    exact replay_has_of_valid eng cache.get_entries ⟨[]⟩ cache n l hmem hval
  · intro hinv
    exact replay_invalid eng cache.get_entries ⟨[]⟩ cache n l hnodup hmem hinv rfl

/-- Witness for C1 at the spec's startup scenario: the cache holds `idx1` at
a valid location and `idx2` at a missing one; after replay `idx1` is open,
`idx2` is not, and `idx2` is gone from the cache entries. -/
theorem startup_replay_correct_witness :
    (startupReplay engEx cacheEx).1.has_db "idx1" = true ∧
    (startupReplay engEx cacheEx).1.has_db "idx2" = false ∧
    "idx2" ∉ (startupReplay engEx cacheEx).2.get_entries.map Prod.fst := by
  have h1 := startup_replay_correct engEx cacheEx (by decide) "idx1"
    "/valid/path" (by decide)
  have h2 := startup_replay_correct engEx cacheEx (by decide) "idx2"
    "/missing/path" (by decide)
  exact ⟨h1.1 (by decide), (h2.2 (by decide)).1, (h2.2 (by decide)).2⟩

theorem insertDesc_perm (d : ScoredDoc) (l : List ScoredDoc) :
    (insertDesc d l).Perm (d :: l) := by
  induction l with
  | nil => exact List.Perm.refl _
  | cons e rest ih =>
    unfold insertDesc
    by_cases h : e.score < d.score
    · rw [if_pos h]
    · rw [if_neg h]
      exact (ih.cons e).trans (List.Perm.swap d e rest)

theorem sortDesc_perm (l : List ScoredDoc) : (sortDesc l).Perm l := by
  induction l with
  | nil => exact List.Perm.refl _
  | cons d rest ih =>
    exact (insertDesc_perm d (sortDesc rest)).trans (ih.cons d)

theorem insertDesc_pairwise (d : ScoredDoc) :
    ∀ l : List ScoredDoc, l.Pairwise (fun a b => b.score ≤ a.score) →
      (insertDesc d l).Pairwise (fun a b => b.score ≤ a.score) := by
  intro l
  induction l with
  | nil =>
    intro _
    simp [insertDesc]
  | cons e rest ih =>
    intro hl
    have he : ∀ x ∈ rest, x.score ≤ e.score := (List.pairwise_cons.mp hl).1
    have hrest := (List.pairwise_cons.mp hl).2
    unfold insertDesc
    by_cases h : e.score < d.score
    · rw [if_pos h]
      refine List.Pairwise.cons ?_ hl
      intro x hx
      rcases List.mem_cons.mp hx with rfl | hx2
      · exact le_of_lt h
      · exact le_trans (he x hx2) (le_of_lt h)
    · rw [if_neg h]
      refine List.Pairwise.cons ?_ (ih hrest)
      intro x hx
      rcases List.mem_cons.mp ((insertDesc_perm d rest).mem_iff.mp hx) with rfl | hx2
      · exact le_of_not_lt h
      · exact he x hx2

theorem sortDesc_pairwise (l : List ScoredDoc) :
    (sortDesc l).Pairwise (fun a b => b.score ≤ a.score) := by
  induction l with
  | nil => simp [sortDesc]
  | cons d rest ih => exact insertDesc_pairwise d (sortDesc rest) ih

/-- C4: when no engine handle fails, `query_all` succeeds with a merge of the
per-index result sequences: at most `limit` documents, each drawn from some
open index's query result, sorted by descending engine-reported score, the
limit being applied only after merging. -/
theorem query_all_merges_sorted_limited (eng : Engine) (m : DatabaseManager)
    (q collapse : Option String) (N : Nat)
    (hok : ∀ db ∈ m.dbs, eng.queryFails db.2 = false) :
    ∃ res, query_all eng m q collapse N = .ok res ∧
      res.length ≤ N ∧
      (∀ d ∈ res, ∃ db ∈ m.dbs, d ∈ eng.queryResult db.2 q collapse N) ∧
      res.Pairwise (fun a b => b.score ≤ a.score) := by
  have hany : m.dbs.any (fun db => eng.queryFails db.2) = false := by
    rw [Bool.eq_false_iff]
    intro hc
    obtain ⟨db, hdb, hf⟩ := List.any_eq_true.mp hc
    simp [hok db hdb] at hf
  refine ⟨(sortDesc (m.dbs.map
      (fun db => eng.queryResult db.2 q collapse N)).flatten).take N,
    ?_, ?_, ?_, ?_⟩
  · simp [query_all, hany]
  · exact List.length_take_le N _
  · intro d hd
    have hd2 := (sortDesc_perm _).mem_iff.mp (List.mem_of_mem_take hd)
    obtain ⟨lst, hlst, hdl⟩ := List.mem_flatten.mp hd2
    obtain ⟨db, hdb, rfl⟩ := List.mem_map.mp hlst
    exact ⟨db, hdb, hdl⟩
  · exact (sortDesc_pairwise _).sublist (List.take_sublist N _)

/-- Witness for C4 at a concrete input: one open index whose engine returns
two documents, queried with limit 1. -/
theorem query_all_merges_sorted_limited_witness :
    ∃ res, query_all engDocs stOpen.manager none none 1 = .ok res ∧
      res.length ≤ 1 ∧
      (∀ d ∈ res, ∃ db ∈ stOpen.manager.dbs,
        d ∈ engDocs.queryResult db.2 none none 1) ∧
      res.Pairwise (fun a b => b.score ≤ a.score) :=
  query_all_merges_sorted_limited engDocs stOpen.manager none none 1 (by decide)

/-- C8: a query request without the `limit` parameter returns 400 for every
index name — open, absent, or the reserved meta-name — and, since the result
does not depend on the engine at all, no query is executed against any engine
handle. -/
theorem query_without_limit_is_400 (eng : Engine) (st : ServerState)
    (index_name : String) (q collapse : Option String) :
    queryHandler eng st index_name q collapse none = ⟨400, none⟩ := rfl

/-- C5: `GET /_all/query` with a `limit` parameter and no open indices yields
status 200 with an empty array body, not an error. -/
theorem query_all_empty_registry_ok (eng : Engine) (cache : DatabaseCache)
    (q collapse : Option String) (n : Nat) :
    queryHandler eng ⟨cache, ⟨[]⟩⟩ "_all" q collapse (some n) = ⟨200, some []⟩ := by
  simp [queryHandler, query_all, META_DATABASE_NAME, sortDesc]

/-- C7, counterexample: a `PUT /_all` request with the `path` parameter
missing is answered 400, not 405 with `Allow: GET`, because the handler
checks for the missing parameter before the reserved-name check; so the
response to a PUT targeting the meta-name is not 405 regardless of the other
request parameters. -/
theorem put_meta_without_path_is_400 :
    (putHandler engEx false stEx "_all" none).1 = ⟨400, none⟩ ∧
    (putHandler engEx false stEx "_all" none).1 ≠ ⟨405, some "GET"⟩ := by
  constructor
  · rfl
  · decide

/-- C7, amended: every PUT carrying a `path` parameter and every DELETE that
targets the reserved meta-name is answered 405 with an `Allow: GET` header
and leaves the state unchanged; a PUT on the meta-name without the `path`
parameter is answered 400. -/
theorem meta_name_rejected_405 (eng : Engine) (csf crf : Bool)
    (st : ServerState) (p : String) :
    putHandler eng csf st META_DATABASE_NAME (some p) =
      (⟨405, some META_DATABASE_METHODS⟩, st) ∧
    deleteHandler crf st META_DATABASE_NAME =
      (⟨405, some META_DATABASE_METHODS⟩, st) ∧
    putHandler eng csf st META_DATABASE_NAME none = (⟨400, none⟩, st) := by
  refine ⟨?_, ?_, rfl⟩
  · simp [putHandler]
  · simp [deleteHandler]

/-- C2: `create` is idempotent on an already-open name: for every engine,
every cache behavior and every location, a PUT on a name that already has an
open handle returns 200 and leaves the whole state — in particular the
existing handle — untouched, and since the response does not depend on the
engine, the new location is not re-validated. -/
theorem put_existing_name_idempotent (eng : Engine) (csf : Bool)
    (st : ServerState) (name loc2 : String)
    (hmeta : name ≠ META_DATABASE_NAME)
    (hopen : st.manager.has_db name = true) :
    putHandler eng csf st name (some loc2) = (⟨200, none⟩, st) := by
  simp [putHandler, hmeta, hopen]

/-- Witness for C2 at a concrete state: `idx1` is open at `/v`; a second
create with a different location succeeds and changes nothing. -/
theorem put_existing_name_idempotent_witness :
    putHandler engEx false stOpen "idx1" (some "/elsewhere") =
      (⟨200, none⟩, stOpen) :=
  put_existing_name_idempotent engEx false stOpen "idx1" "/elsewhere"
    (by decide) (by decide)

/-- C3, counterexample: `create(name, invalid_location)` does not return 403
for every name — on a name that is already open the handler returns 200
without validating the location, so the claim's "for every name" fails. -/
theorem put_invalid_location_on_open_name_is_200 :
    "/bad" ∉ engEx.validLocations ∧
    (putHandler engEx false stOpen "idx1" (some "/bad")).1 = ⟨200, none⟩ ∧
    (putHandler engEx false stOpen "idx1" (some "/bad")).1 ≠ ⟨403, none⟩ := by
  refine ⟨by decide, rfl, by decide⟩

/-- C3, amended: a PUT with an invalid location never mutates the state —
`has(name)` afterwards equals `has(name)` before for every name — and when
the target name has no open handle and is not the reserved meta-name the
response is 403 (`InvalidLocation`). -/
theorem put_invalid_location_403_state_unchanged (eng : Engine) (csf : Bool)
    (st : ServerState) (name loc : String)
    (hinv : loc ∉ eng.validLocations) :
    (putHandler eng csf st name (some loc)).2 = st ∧
    (name ≠ META_DATABASE_NAME → st.manager.has_db name = false →
      (putHandler eng csf st name (some loc)).1 = ⟨403, none⟩) := by
  by_cases hmeta : name = META_DATABASE_NAME
  · subst hmeta
    constructor
    · simp [putHandler]
    · intro h
      exact absurd rfl h
  · by_cases hopen : st.manager.has_db name
    · constructor
      · simp [putHandler, hmeta, hopen]
      · intro _ habs
        rw [hopen] at habs
        exact absurd habs (by simp)
    · have hcreate : create_db eng st.manager name loc = .error .invalidPath := by
        simp [create_db, hopen, hinv]
      constructor
      · simp [putHandler, hmeta, hopen, hcreate]
      · intro _ _
        simp [putHandler, hmeta, hopen, hcreate]

/-- Witness for C3's amended statement at a concrete input: creating `idx9`
at the invalid location `/bad` on the empty state returns 403 and leaves the
state unchanged. -/
theorem put_invalid_location_403_state_unchanged_witness :
    (putHandler engEx false stEx "idx9" (some "/bad")).2 = stEx ∧
    ("idx9" ≠ META_DATABASE_NAME → stEx.manager.has_db "idx9" = false →
      (putHandler engEx false stEx "idx9" (some "/bad")).1 = ⟨403, none⟩) :=
  put_invalid_location_403_state_unchanged engEx false stEx "idx9" "/bad"
    (by decide)
